import Mathlib

/-!
Verification development for the server-side map runtime of the RPG-JS
repository.  The definitions below are a shallow embedding of
`src/packages/server/src/Game/Map.ts` (event spawning, the load cache,
event removal, the leave path) together with spec-modelled versions of
the movement, shape-geometry and trigger-detection components whose
implementations live outside the provided sources.
-/

namespace RPGJS

/-! ## Event data model (`Map.ts`, `Player.ts` declarations) -/

/-- Event creation mode: `Scenario` (one instance per map) or `Shared`
(instance per dynamic spawn), from `EventMode` in `Player/Player.ts`. -/
inductive EventMode where
  | Scenario
  | Shared
deriving DecidableEq, Repr

/-- Static options of an event class (`EventOptions` plus the static
`mode`/`hitbox` fields read by `RpgMap.createEvent`). -/
structure EventOptions where
  name : String
  mode : EventMode
  width : Option Nat := none
  height : Option Nat := none
  hitbox : Option (Nat × Nat) := none
deriving DecidableEq, Repr

/-- `EventOption = EventPosOption | EventOptions`: either a bare event
class or a `{ x, y, event }` record.  `RpgMap.createEvent` distinguishes
the two cases by `obj.x === undefined`. -/
inductive EventOption where
  | bare (event : EventOptions)
  | positioned (x y : Int) (event : EventOptions)
deriving DecidableEq, Repr

/-- The event definition carried by an `EventOption` (the `event = obj`
vs `event = obj.event` branch of `RpgMap.createEvent`). -/
def EventOption.eventDef : EventOption → EventOptions
  | .bare e => e
  | .positioned _ _ e => e

/-- The optional spawn position (`position = { x: obj.x, y: obj.y, z: 0 }`
when `obj.x` is defined). -/
def EventOption.position : EventOption → Option (Int × Int × Int)
  | .bare _ => none
  | .positioned x y _ => some (x, y, 0)

/-- A live event instance as produced by `RpgMap.createEvent`:
`game.addEvent` assigns a fresh id, then width/height/hitbox/position
are copied from the definition.  `initCount` counts how many times
`execMethod('onInit')` ran on the instance. -/
structure RpgEventInst where
  id : Nat
  name : String
  mode : EventMode
  width : Nat
  height : Nat
  hitbox : Option (Nat × Nat)
  pos : Option (Int × Int × Int)
  initCount : Nat
deriving DecidableEq, Repr

/-- Map-level constants consulted by `createEvent`
(`ev.width = event.width || this.tileWidth`). -/
structure MapCtx where
  tileWidth : Nat
  tileHeight : Nat
deriving DecidableEq, Repr

/-- JavaScript `v || d` on an optional numeric field: `undefined` and `0`
are both falsy and fall back to the default. -/
def jsOrDefault (v : Option Nat) (d : Nat) : Nat :=
  match v with
  | none => d
  | some w => if w = 0 then d else w

namespace RpgMap

/-- `RpgMap.createEvent(obj, mode)` : the event is ignored (`null`) when
the definition's declared mode differs from the requested mode;
otherwise an instance is created with a fresh id and the definition's
geometry. -/
def createEvent (ctx : MapCtx) (obj : EventOption) (mode : EventMode)
    (nextId : Nat) : Option RpgEventInst :=
  let event := obj.eventDef
  if event.mode ≠ mode then
    none
  else
    some
      { id := nextId
        name := event.name
        mode := event.mode
        width := jsOrDefault event.width ctx.tileWidth
        height := jsOrDefault event.height ctx.tileHeight
        hitbox := event.hitbox
        pos := obj.position
        initCount := 0 }

/-- `RpgMap.createEvents(eventsList, mode)` : builds the dictionary
`events[ev.id] = ev` over the list, skipping every `null` result of
`createEvent`.  Fresh ids are threaded through (`game.addEvent`). -/
def createEvents (ctx : MapCtx) (eventsList : List EventOption)
    (mode : EventMode) (nextId : Nat) :
    List (Nat × RpgEventInst) × Nat :=
  match eventsList with
  | [] => ([], nextId)
  | obj :: rest =>
    match createEvent ctx obj mode nextId with
    | none => createEvents ctx rest mode nextId
    | some ev =>
      let tail := createEvents ctx rest mode (nextId + 1)
      ((ev.id, ev) :: tail.1, tail.2)

/-- The registry state of one `RpgMap`: the `events` dictionary plus the
fresh-id counter of the game engine. -/
structure RegistryState where
  events : List (Nat × RpgEventInst)
  nextId : Nat
deriving DecidableEq, Repr

/-- `this.events[key].execMethod('onInit')`. -/
def execOnInit (ev : RpgEventInst) : RpgEventInst :=
  { ev with initCount := ev.initCount + 1 }

/-- `RpgMap.createDynamicEvent(eventsList)` : creates the events in
`Shared` mode, stores each in `this.events` and invokes `onInit` once on
each stored event; returns the dictionary of the new entries. -/
def createDynamicEvent (ctx : MapCtx) (eventsList : List EventOption)
    (s : RegistryState) : RegistryState × List (Nat × RpgEventInst) :=
  let created := createEvents ctx eventsList EventMode.Shared s.nextId
  let newEntries := created.1.map (fun p => (p.1, execOnInit p.2))
  ({ events := s.events ++ newEntries, nextId := created.2 }, newEntries)

/-- The parsed map definition delivered by `parseFile` (collaborator
parser; only its success/failure matters to the claims). -/
structure MapData where
  version : Nat
deriving DecidableEq, Repr

/-- State visible to `RpgMap.load`: the process-wide
`RpgCommonMap.buffer` of loaded map ids, a counter of executed
`parseFile` calls, and the map's registry state. -/
structure LoadState where
  buffer : List Nat
  parseCount : Nat
  registry : RegistryState
deriving DecidableEq, Repr

/-- `RpgMap.load()` : returns immediately when `RpgCommonMap.buffer` has
the map id; otherwise awaits `parseFile()` (a rejection propagates and
nothing is cached), then sets the buffer entry and creates the declared
events via `createDynamicEvent`.  `parse` is the outcome of the
collaborator `parseFile`; the result's second component is the outcome
of the `load` call itself. -/
def load (ctx : MapCtx) (id : Nat) (parse : Except String MapData)
    (declaredEvents : List EventOption) (s : LoadState) :
    LoadState × Except String Unit :=
  if id ∈ s.buffer then
    (s, Except.ok ())
  else
    let attempted : LoadState := { s with parseCount := s.parseCount + 1 }
    match parse with
    | Except.error e => (attempted, Except.error e)
    | Except.ok _ =>
      let cached : LoadState := { attempted with buffer := id :: attempted.buffer }
      let spawned := createDynamicEvent ctx declaredEvents cached.registry
      ({ cached with registry := spawned.1 }, Except.ok ())

/-- State of one map as observed by `removeEvent`: the `events`
dictionary and the spatial grid's reverse index (object id to occupied
cells), owned by `RpgCommonMap.grid`. -/
structure MapState where
  events : List (Nat × RpgEventInst)
  gridCells : List (Nat × List Nat)
deriving DecidableEq, Repr

/-- `RpgMap.removeEvent(eventId)` : returns `false` when the id is not a
key of `this.events`, otherwise deletes that key and returns `true`.
No grid operation is performed by this method. -/
def removeEvent (s : MapState) (eventId : Nat) : MapState × Bool :=
  match s.events.lookup eventId with
  | none => (s, false)
  | some _ =>
    ({ s with events := s.events.filter (fun p => decide (p.1 ≠ eventId)) }, true)

/-- An actor as seen by `RpgMap.onLeave`: its id and the ids of its
attached shapes (`getShapes()`). -/
structure LeaveActor where
  id : Nat
  shapes : List Nat
deriving DecidableEq, Repr

/-- One observable effect of the leave path: a forced-exit call
`shape.out(target)` or the grid clear `grid.clearObjectInCells(id)`. -/
inductive LeaveEffect where
  | shapeOut (shapeId : Nat) (targetId : Nat)
  | gridClear (objId : Nat)
deriving DecidableEq, Repr

/-- `RpgMap.onLeave(player)` : calls `shape.out(player)` on every map
shape, then for every other object of the map's group calls
`shape.out(event)` on each of the player's shapes and `shape.out(player)`
on each of the event's shapes, and finally clears the player's cells in
the grid.  The result is the ordered trace of those calls. -/
def onLeave (mapShapes : List Nat) (events : List LeaveActor)
    (player : LeaveActor) : List LeaveEffect :=
  (mapShapes.map (fun sid => LeaveEffect.shapeOut sid player.id))
    ++ (events.flatMap (fun ev =>
          player.shapes.map (fun sid => LeaveEffect.shapeOut sid ev.id)
            ++ ev.shapes.map (fun sid => LeaveEffect.shapeOut sid player.id)))
    ++ [LeaveEffect.gridClear player.id]

end RpgMap

/-! ## Movement (spec-modelled) -/

/-- Facing directions of an actor. -/
inductive Direction where
  | Up
  | Right
  | Down
  | Left
deriving DecidableEq, Repr

/-- An actor position `(x, y, z)`; `z` is a layer index not used in
collision. -/
structure Position where
  x : Int
  y : Int
  z : Int
deriving DecidableEq, Repr

/-- Clamp a coordinate into the interval `[lo, hi]`. -/
def clampAxis (lo hi v : Int) : Int := max lo (min hi v)

/-- Modelled from the spec: the directional-step MoveCommand of the
MoveManager (`src/packages/common`'s movement code is not under `src/`).
A step displaces the actor by `speed` pixels along the direction, and
the destination is clamped against the map edges
`[0, mapWidthPixels] × [0, mapHeightPixels]`; a blocked or out-of-bounds
target resolves to the boundary value, never to an error. -/
def directionalStep (mapW mapH speed : Nat) (d : Direction)
    (p : Position) : Position :=
  match d with
  | Direction.Left => { p with x := clampAxis 0 mapW (p.x - speed) }
  | Direction.Right => { p with x := clampAxis 0 mapW (p.x + speed) }
  | Direction.Up => { p with y := clampAxis 0 mapH (p.y - speed) }
  | Direction.Down => { p with y := clampAxis 0 mapH (p.y + speed) }

/-! ## Shape geometry (spec-modelled) -/

/-- Relative-positioning rule of an attached shape. -/
inductive ShapePositioning where
  | TopLeft
  | Center
deriving DecidableEq, Repr

/-- An auxiliary shape attached to an actor: fixed width/height and a
positioning rule. -/
structure AttachedShape where
  width : Int
  height : Int
  positioning : ShapePositioning
deriving DecidableEq, Repr

/-- The geometric data of an actor consulted by `getSizeMaxShape`:
position, hitbox and attached shapes. -/
structure ActorGeom where
  x : Int
  y : Int
  hitboxWidth : Int
  hitboxHeight : Int
  shapes : List AttachedShape
deriving DecidableEq, Repr

/-- An axis-aligned bounding rectangle in absolute map coordinates. -/
structure BoundBox where
  minX : Int
  minY : Int
  maxX : Int
  maxY : Int
deriving DecidableEq, Repr

/-- The hitbox rectangle: min corner at the actor position (`TopLeft`
rule, implicit for the hitbox itself). -/
def hitboxBound (a : ActorGeom) : BoundBox :=
  { minX := a.x, minY := a.y
    maxX := a.x + a.hitboxWidth, maxY := a.y + a.hitboxHeight }

/-- Modelled from the spec: absolute rectangle of one attached shape
(`getSizeMaxShape`'s per-shape placement is in common code not under
`src/`).  `TopLeft`: min corner at the actor position.  `Center`: min
corner at actor-center minus half the shape size. -/
def shapeBound (a : ActorGeom) (s : AttachedShape) : BoundBox :=
  match s.positioning with
  | ShapePositioning.TopLeft =>
    { minX := a.x, minY := a.y
      maxX := a.x + s.width, maxY := a.y + s.height }
  | ShapePositioning.Center =>
    let cx := a.x + a.hitboxWidth / 2
    let cy := a.y + a.hitboxHeight / 2
    { minX := cx - s.width / 2, minY := cy - s.height / 2
      maxX := cx - s.width / 2 + s.width, maxY := cy - s.height / 2 + s.height }

/-- Smallest rectangle covering two rectangles. -/
def boxUnion (a b : BoundBox) : BoundBox :=
  { minX := min a.minX b.minX, minY := min a.minY b.minY
    maxX := max a.maxX b.maxX, maxY := max a.maxY b.maxY }

/-- Modelled from the spec: `getSizeMaxShape(actor)` — the maximal
bounding region, i.e. the union of the hitbox rectangle with the
rectangle of every attached shape. -/
def getSizeMaxShape (a : ActorGeom) : BoundBox :=
  (a.shapes.map (shapeBound a)).foldl boxUnion (hitboxBound a)

/-- `covers a b` : rectangle `a` contains rectangle `b`. -/
def covers (a b : BoundBox) : Prop :=
  a.minX ≤ b.minX ∧ a.minY ≤ b.minY ∧ b.maxX ≤ a.maxX ∧ b.maxY ≤ a.maxY

instance (a b : BoundBox) : Decidable (covers a b) := by
  unfold covers
  infer_instance

/-! ## Trigger detection (spec-modelled) -/

/-- Modelled from the spec: the TriggerDetector's `entered` component —
shapes (by id) in the new overlap set but not the previous one. -/
def entered (prevSet newSet : List Nat) : List Nat :=
  newSet.filter (fun s => decide (s ∉ prevSet))

/-- Modelled from the spec: the TriggerDetector's `exited` component —
shapes in the previous overlap set but not the new one. -/
def exited (prevSet newSet : List Nat) : List Nat :=
  prevSet.filter (fun s => decide (s ∉ newSet))

/-- A hook notification emitted on a trigger transition. -/
inductive Hook where
  | inShape (shapeId : Nat)
  | outShape (shapeId : Nat)
deriving DecidableEq, Repr

/-- One evaluation after a committed position change: enter hooks for
`entered` then exit hooks for `exited`, in registration order. -/
def evaluate (prevSet newSet : List Nat) : List Hook :=
  (entered prevSet newSet).map Hook.inShape
    ++ (exited prevSet newSet).map Hook.outShape

/-- The hook trace over a sequence of committed overlap sets, starting
from a previous overlap set. -/
def commitRun (prevSet : List Nat) : List (List Nat) → List Hook
  | [] => []
  | n :: rest => evaluate prevSet n ++ commitRun n rest

/-- Number of complement-to-member transitions of shape `s` along a run
of overlap sets. -/
def crossIn (s : Nat) (prevSet : List Nat) : List (List Nat) → Nat
  | [] => 0
  | n :: rest => (if s ∈ n ∧ s ∉ prevSet then 1 else 0) + crossIn s n rest

/-- Number of member-to-complement transitions of shape `s` along a run
of overlap sets. -/
def crossOut (s : Nat) (prevSet : List Nat) : List (List Nat) → Nat
  | [] => 0
  | n :: rest => (if s ∈ prevSet ∧ s ∉ n then 1 else 0) + crossOut s n rest

/-! ## Tile-aligned steps (spec-modelled) -/

/-- The next tile-grid boundary strictly beyond `pos` for tile dimension
`tileW`. -/
def nextBoundary (tileW pos : Nat) : Nat := (pos / tileW + 1) * tileW

/-- Modelled from the spec: repeat a directional step of `speed` pixels
(capped at the tile boundary so the actor lands exactly on the grid)
until the target boundary is reached; `fuel` bounds the iteration. -/
def stepToBoundary (speed target : Nat) : Nat → Nat → Nat
  | 0, pos => pos
  | fuel + 1, pos =>
    if target ≤ pos then pos
    else stepToBoundary speed target fuel (min (pos + speed) target)

/-- Modelled from the spec: one tile-aligned step Right
(`Move.tileRight`'s implementation is in common code not under `src/`):
directional steps repeat until the x position is an exact multiple of
the tile width. -/
def tileStepRight (tileW speed pos : Nat) : Nat :=
  stepToBoundary speed (nextBoundary tileW pos) (nextBoundary tileW pos) pos

/-- `Move.tileRight(count)` repeated on the x axis. -/
def tileRightRepeat (tileW speed : Nat) : Nat → Nat → Nat
  | 0, pos => pos
  | n + 1, pos => tileRightRepeat tileW speed n (tileStepRight tileW speed pos)

/-! ## Theorems -/

/-- Helper: `load` on an id already in the buffer returns the state
unchanged with a successful outcome. -/
theorem load_cached (ctx : MapCtx) (id : Nat) (parse : Except String RpgMap.MapData)
    (evs : List EventOption) (s : RpgMap.LoadState) (h : id ∈ s.buffer) :
    RpgMap.load ctx id parse evs s = (s, Except.ok ()) := by
  simp [RpgMap.load, h]

/-- Claim C1: after a successful first `load` of a map id, a second
`load` returns without side effects: it yields the same state (so no
second parse is performed and no duplicate event — in particular no
Scenario-mode event — is spawned), and the cached map state after the
second call equals the state after the first call. -/
theorem load_idempotent (ctx : MapCtx) (id : Nat)
    (parse : Except String RpgMap.MapData) (evs : List EventOption)
    (s : RpgMap.LoadState)
    (h : (RpgMap.load ctx id parse evs s).2 = Except.ok ()) :
    RpgMap.load ctx id parse evs (RpgMap.load ctx id parse evs s).1
      = ((RpgMap.load ctx id parse evs s).1, Except.ok ()) ∧
    (RpgMap.load ctx id parse evs (RpgMap.load ctx id parse evs s).1).1.parseCount
      = (RpgMap.load ctx id parse evs s).1.parseCount ∧
    (RpgMap.load ctx id parse evs (RpgMap.load ctx id parse evs s).1).1.registry
      = (RpgMap.load ctx id parse evs s).1.registry := by
  have hmem : id ∈ (RpgMap.load ctx id parse evs s).1.buffer := by
    by_cases hb : id ∈ s.buffer
    · simp [RpgMap.load, hb]
    · cases parse with
      | error e => simp [RpgMap.load, hb] at h
      | ok d => simp [RpgMap.load, hb]
  have h2 := load_cached ctx id parse evs (RpgMap.load ctx id parse evs s).1 hmem
  exact ⟨h2, by rw [h2], by rw [h2]⟩

/-- Witness for C1 at a concrete map id and state. -/
theorem load_idempotent_witness :
    (RpgMap.load ⟨30, 30⟩ 7 (Except.ok ⟨1⟩) [] ⟨[], 0, ⟨[], 0⟩⟩).2 = Except.ok () ∧
    RpgMap.load ⟨30, 30⟩ 7 (Except.ok ⟨1⟩) []
        (RpgMap.load ⟨30, 30⟩ 7 (Except.ok ⟨1⟩) [] ⟨[], 0, ⟨[], 0⟩⟩).1
      = ((RpgMap.load ⟨30, 30⟩ 7 (Except.ok ⟨1⟩) [] ⟨[], 0, ⟨[], 0⟩⟩).1,
          Except.ok ()) :=
  ⟨by rfl,
   (load_idempotent ⟨30, 30⟩ 7 (Except.ok ⟨1⟩) [] ⟨[], 0, ⟨[], 0⟩⟩ (by rfl)).1⟩

/-- Claim C8: when the parse of an uncached map fails, `load` surfaces
the rejection, the buffer gains no entry for the id and the registry is
untouched; a later `load` with a successful parse starts from scratch:
it parses again (one more `parseFile` execution) and then caches. -/
theorem load_parse_failure (ctx : MapCtx) (id : Nat) (e : String)
    (d : RpgMap.MapData) (evs : List EventOption) (s : RpgMap.LoadState)
    (h : id ∉ s.buffer) :
    (RpgMap.load ctx id (Except.error e) evs s).2 = Except.error e ∧
    id ∉ (RpgMap.load ctx id (Except.error e) evs s).1.buffer ∧
    (RpgMap.load ctx id (Except.error e) evs s).1.registry = s.registry ∧
    (RpgMap.load ctx id (Except.ok d) evs
        (RpgMap.load ctx id (Except.error e) evs s).1).2 = Except.ok () ∧
    (RpgMap.load ctx id (Except.ok d) evs
        (RpgMap.load ctx id (Except.error e) evs s).1).1.parseCount
      = s.parseCount + 2 ∧
    id ∈ (RpgMap.load ctx id (Except.ok d) evs
        (RpgMap.load ctx id (Except.error e) evs s).1).1.buffer := by
  have h1 : RpgMap.load ctx id (Except.error e) evs s
      = ({ s with parseCount := s.parseCount + 1 }, Except.error e) := by
    simp [RpgMap.load, h]
  rw [h1]
  refine ⟨rfl, h, rfl, ?_, ?_, ?_⟩ <;> simp [RpgMap.load, h]

/-- Witness for C8 at a concrete map id and state. -/
theorem load_parse_failure_witness :
    7 ∉ (⟨[], 0, ⟨[], 0⟩⟩ : RpgMap.LoadState).buffer ∧
    (RpgMap.load ⟨30, 30⟩ 7 (Except.error "ENOENT") [] ⟨[], 0, ⟨[], 0⟩⟩).2
      = Except.error "ENOENT" ∧
    7 ∉ (RpgMap.load ⟨30, 30⟩ 7 (Except.error "ENOENT") [] ⟨[], 0, ⟨[], 0⟩⟩).1.buffer :=
  ⟨by decide,
   (load_parse_failure ⟨30, 30⟩ 7 "ENOENT" ⟨1⟩ [] ⟨[], 0, ⟨[], 0⟩⟩ (by decide)).1,
   (load_parse_failure ⟨30, 30⟩ 7 "ENOENT" ⟨1⟩ [] ⟨[], 0, ⟨[], 0⟩⟩ (by decide)).2.1⟩

/-- Helper: every entry produced by `createEvents` carries the requested
mode, a zero `onInit` count, and is keyed by its own id. -/
theorem createEvents_entries (ctx : MapCtx) (l : List EventOption)
    (mode : EventMode) :
    ∀ nid : Nat, ∀ p ∈ (RpgMap.createEvents ctx l mode nid).1,
      p.2.mode = mode ∧ p.2.initCount = 0 ∧ p.1 = p.2.id := by
  induction l with
  | nil => intro nid p hp; simp [RpgMap.createEvents] at hp
  | cons obj rest ih =>
    intro nid p hp
    rw [RpgMap.createEvents] at hp
    by_cases hm : obj.eventDef.mode = mode
    · rw [RpgMap.createEvent] at hp
      simp only [hm, ne_eq, not_true_eq_false, if_false, ite_false] at hp
      rcases List.mem_cons.mp hp with h | h
      · subst h
        exact ⟨rfl, rfl, rfl⟩
      · exact ih (nid + 1) p h
    · have hnone : RpgMap.createEvent ctx obj mode nid = none := by
        simp [RpgMap.createEvent, hm]
      rw [hnone] at hp
      exact ih nid p hp

/-- Helper: a list of definitions none of which declares the requested
mode produces no entry at all. -/
theorem createEvents_all_mismatch (ctx : MapCtx) (l : List EventOption)
    (mode : EventMode) (h : ∀ obj ∈ l, obj.eventDef.mode ≠ mode) :
    ∀ nid : Nat, (RpgMap.createEvents ctx l mode nid).1 = [] := by
  induction l with
  | nil => intro nid; rw [RpgMap.createEvents]
  | cons obj rest ih =>
    intro nid
    have hnone : RpgMap.createEvent ctx obj mode nid = none := by
      simp [RpgMap.createEvent, h obj (List.mem_cons_self obj rest)]
    rw [RpgMap.createEvents, hnone]
    exact ih (fun o ho => h o (List.mem_cons_of_mem obj ho)) nid

/-- Claim C2: spawning a definition whose declared mode differs from the
requested mode yields no created actor (`null`, not an error), produces
no dictionary entry through `createEvents`, and — through the
registry-writing `createDynamicEvent` path, which requests `Shared` —
leaves the map's event registry unchanged. -/
theorem createEvent_mode_mismatch (ctx : MapCtx) (obj : EventOption)
    (mode : EventMode) (nid : Nat) (s : RpgMap.RegistryState)
    (h : obj.eventDef.mode ≠ mode) :
    RpgMap.createEvent ctx obj mode nid = none ∧
    (RpgMap.createEvents ctx [obj] mode nid).1 = [] ∧
    (obj.eventDef.mode ≠ EventMode.Shared →
      (RpgMap.createDynamicEvent ctx [obj] s).1.events = s.events) := by
  refine ⟨by simp [RpgMap.createEvent, h], ?_, ?_⟩
  · exact createEvents_all_mismatch ctx [obj] mode (by simpa using h) nid
  · intro h2
    have hempty := createEvents_all_mismatch ctx [obj] EventMode.Shared
      (by simpa using h2) s.nextId
    simp [RpgMap.createDynamicEvent, hempty]

/-- Witness for C2 at a concrete Scenario-mode definition. -/
theorem createEvent_mode_mismatch_witness :
    (EventOption.bare ⟨"EV-1", EventMode.Scenario, none, none, none⟩).eventDef.mode
      ≠ EventMode.Shared ∧
    RpgMap.createEvent ⟨30, 30⟩
      (EventOption.bare ⟨"EV-1", EventMode.Scenario, none, none, none⟩)
      EventMode.Shared 0 = none :=
  ⟨by decide,
   (createEvent_mode_mismatch ⟨30, 30⟩
      (EventOption.bare ⟨"EV-1", EventMode.Scenario, none, none, none⟩)
      EventMode.Shared 0 ⟨[], 0⟩ (by decide)).1⟩

/-- Claim C10: `createDynamicEvent` registers exactly its newly created
entries after the existing ones; every such entry was created in
`Shared` mode and has had `onInit` invoked exactly once; and a list of
definitions all declaring `Scenario` mode produces no instance through
this path. -/
theorem createDynamicEvent_shared (ctx : MapCtx) (l : List EventOption)
    (s : RpgMap.RegistryState) :
    (RpgMap.createDynamicEvent ctx l s).1.events
        = s.events ++ (RpgMap.createDynamicEvent ctx l s).2 ∧
    (∀ p ∈ (RpgMap.createDynamicEvent ctx l s).2,
        p.2.mode = EventMode.Shared ∧ p.2.initCount = 1) ∧
    ((∀ obj ∈ l, obj.eventDef.mode = EventMode.Scenario) →
        (RpgMap.createDynamicEvent ctx l s).2 = []) := by
  refine ⟨rfl, ?_, ?_⟩
  · intro p hp
    simp only [RpgMap.createDynamicEvent, List.mem_map] at hp
    obtain ⟨q, hq, hpq⟩ := hp
    obtain ⟨hmode, hinit, _⟩ :=
      createEvents_entries ctx l EventMode.Shared s.nextId q hq
    subst hpq
    exact ⟨hmode, by simp [RpgMap.execOnInit, hinit]⟩
  · intro hall
    have hempty := createEvents_all_mismatch ctx l EventMode.Shared
      (fun o ho => by simp [hall o ho]) s.nextId
    simp [RpgMap.createDynamicEvent, hempty]

/-- Witness for C10 at a concrete mixed list of definitions. -/
theorem createDynamicEvent_shared_witness :
    (RpgMap.createDynamicEvent ⟨30, 30⟩
        [EventOption.positioned 100 100 ⟨"EV-1", EventMode.Shared, none, none, none⟩,
         EventOption.bare ⟨"EV-2", EventMode.Scenario, none, none, none⟩]
        ⟨[], 0⟩).1.events
      = ([] : List (Nat × RpgEventInst))
        ++ (RpgMap.createDynamicEvent ⟨30, 30⟩
        [EventOption.positioned 100 100 ⟨"EV-1", EventMode.Shared, none, none, none⟩,
         EventOption.bare ⟨"EV-2", EventMode.Scenario, none, none, none⟩]
        ⟨[], 0⟩).2 :=
  (createDynamicEvent_shared ⟨30, 30⟩
    [EventOption.positioned 100 100 ⟨"EV-1", EventMode.Shared, none, none, none⟩,
     EventOption.bare ⟨"EV-2", EventMode.Scenario, none, none, none⟩]
    ⟨[], 0⟩).1

/-- Helper: looking up a key in an association list from which that key
was filtered out yields nothing. -/
theorem lookup_filter_ne (l : List (Nat × RpgEventInst)) (k : Nat) :
    (l.filter (fun p => decide (p.1 ≠ k))).lookup k = none := by
  induction l with
  | nil => rfl
  | cons p rest ih =>
    by_cases hp : p.1 = k
    · simpa [List.filter, hp] using ih
    · have hk : (k == p.1) = false := by
        simp [Ne.symm hp]
      simp [List.filter, hp, List.lookup, hk, ih]
      exact fun a b _ h => Ne.symm h

/-- Claim C6 counterexample: on a map whose registry and grid both hold
event id 5, `removeEvent 5` returns `true` and deletes the registry
entry, but the spatial-grid entry of the event remains — the claim that
the event is removed from both the EventRegistry and the SpatialGrid is
false. -/
theorem removeEvent_grid_cex :
    (RpgMap.removeEvent
        ⟨[(5, ⟨5, "EV-5", EventMode.Shared, 32, 32, none, none, 1⟩)],
         [(5, [0, 1])]⟩ 5).2 = true ∧
    (RpgMap.removeEvent
        ⟨[(5, ⟨5, "EV-5", EventMode.Shared, 32, 32, none, none, 1⟩)],
         [(5, [0, 1])]⟩ 5).1.events.lookup 5 = none ∧
    ¬ (RpgMap.removeEvent
        ⟨[(5, ⟨5, "EV-5", EventMode.Shared, 32, 32, none, none, 1⟩)],
         [(5, [0, 1])]⟩ 5).1.gridCells.lookup 5 = none := by
  refine ⟨rfl, rfl, ?_⟩
  intro h
  simp [RpgMap.removeEvent, List.lookup] at h

/-- Claim C6 (amended): `removeEvent(id)` removes the event from the
EventRegistry and returns `true` when an event with that id existed —
the SpatialGrid is left untouched by this call — and for an id with no
registered event it returns `false` without raising and leaves the whole
state unchanged. -/
theorem removeEvent_spec (s : RpgMap.MapState) (eventId : Nat) :
    (s.events.lookup eventId = none →
      RpgMap.removeEvent s eventId = (s, false)) ∧
    (s.events.lookup eventId ≠ none →
      (RpgMap.removeEvent s eventId).2 = true ∧
      (RpgMap.removeEvent s eventId).1.events.lookup eventId = none ∧
      (RpgMap.removeEvent s eventId).1.gridCells = s.gridCells) := by
  constructor
  · intro h
    simp [RpgMap.removeEvent, h]
  · intro h
    match hl : s.events.lookup eventId with
    | none => exact absurd hl h
    | some ev =>
      have h1 : RpgMap.removeEvent s eventId
          = ({ s with
                events := s.events.filter (fun p => decide (p.1 ≠ eventId)) },
             true) := by
        simp [RpgMap.removeEvent, hl]
      rw [h1]
      exact ⟨rfl, lookup_filter_ne s.events eventId, rfl⟩

/-- Witness for C6 (amended) at a concrete missing id. -/
theorem removeEvent_spec_witness :
    (⟨[], []⟩ : RpgMap.MapState).events.lookup 9 = none ∧
    RpgMap.removeEvent ⟨[], []⟩ 9 = (⟨[], []⟩, false) :=
  ⟨rfl, (removeEvent_spec ⟨[], []⟩ 9).1 rfl⟩

/-- Claim C9: the leave path emits a forced-exit call (`shape.out`) for
every map shape against the leaving actor and, symmetrically, for each
of the actor's shapes against every other object of the map and for each
other object's shapes against the actor, and every one of those exit
calls occurs strictly before the actor's cells are cleared from the
grid: the grid clear is the last effect of the trace. -/
theorem onLeave_exits_before_grid (mapShapes : List Nat)
    (events : List RpgMap.LeaveActor) (player : RpgMap.LeaveActor) :
    ∃ outs : List RpgMap.LeaveEffect,
      RpgMap.onLeave mapShapes events player
        = outs ++ [RpgMap.LeaveEffect.gridClear player.id] ∧
      (∀ e ∈ outs, ∃ sid tid, e = RpgMap.LeaveEffect.shapeOut sid tid) ∧
      (∀ sid ∈ mapShapes, RpgMap.LeaveEffect.shapeOut sid player.id ∈ outs) ∧
      (∀ ev ∈ events,
        (∀ sid ∈ player.shapes,
          RpgMap.LeaveEffect.shapeOut sid ev.id ∈ outs) ∧
        (∀ sid ∈ ev.shapes,
          RpgMap.LeaveEffect.shapeOut sid player.id ∈ outs)) := by
  refine ⟨(mapShapes.map (fun sid => RpgMap.LeaveEffect.shapeOut sid player.id))
      ++ (events.flatMap (fun ev =>
            player.shapes.map (fun sid => RpgMap.LeaveEffect.shapeOut sid ev.id)
              ++ ev.shapes.map
                  (fun sid => RpgMap.LeaveEffect.shapeOut sid player.id))),
    ?_, ?_, ?_, ?_⟩
  · rw [RpgMap.onLeave, List.append_assoc]
  · intro e he
    rcases List.mem_append.mp he with h | h
    · obtain ⟨sid, _, rfl⟩ := List.mem_map.mp h
      exact ⟨sid, player.id, rfl⟩
    · obtain ⟨ev, _, hmem⟩ := List.mem_flatMap.mp h
      rcases List.mem_append.mp hmem with h2 | h2
      · obtain ⟨sid, _, rfl⟩ := List.mem_map.mp h2
        exact ⟨sid, ev.id, rfl⟩
      · obtain ⟨sid, _, rfl⟩ := List.mem_map.mp h2
        exact ⟨sid, player.id, rfl⟩
  · intro sid hs
    exact List.mem_append.mpr (Or.inl (List.mem_map_of_mem _ hs))
  · intro ev hev
    constructor
    · intro sid hs
      refine List.mem_append.mpr (Or.inr ?_)
      exact List.mem_flatMap.mpr
        ⟨ev, hev, List.mem_append.mpr (Or.inl (List.mem_map_of_mem _ hs))⟩
    · intro sid hs
      refine List.mem_append.mpr (Or.inr ?_)
      exact List.mem_flatMap.mpr
        ⟨ev, hev, List.mem_append.mpr (Or.inr (List.mem_map_of_mem _ hs))⟩

/-- Helper: a coordinate clamped into `[0, hi]` lies in `[0, hi]`. -/
theorem clampAxis_mem (hi : Nat) (v : Int) :
    0 ≤ clampAxis 0 hi v ∧ clampAxis 0 hi v ≤ (hi : Int) := by
  unfold clampAxis
  omega

/-- Claim C3: a committed directional step keeps every position
component within `[0, mapWidthPixels] × [0, mapHeightPixels]` and
leaves `z` unchanged — the move is resolved by clamping, the step
function is total and never raises — and in particular an actor at
`x = 1` with `speed = 3` executing one Left step ends at exactly `x = 0`
with `y` and `z` unchanged. -/
theorem directionalStep_bounds (mapW mapH speed : Nat) (d : Direction)
    (p : Position) (hx0 : 0 ≤ p.x) (hx1 : p.x ≤ (mapW : Int))
    (hy0 : 0 ≤ p.y) (hy1 : p.y ≤ (mapH : Int)) :
    (0 ≤ (directionalStep mapW mapH speed d p).x ∧
     (directionalStep mapW mapH speed d p).x ≤ (mapW : Int) ∧
     0 ≤ (directionalStep mapW mapH speed d p).y ∧
     (directionalStep mapW mapH speed d p).y ≤ (mapH : Int) ∧
     (directionalStep mapW mapH speed d p).z = p.z) ∧
    (∀ y z : Int, directionalStep mapW mapH 3 Direction.Left ⟨1, y, z⟩
      = ⟨0, y, z⟩) := by
  constructor
  · cases d <;>
      refine ⟨?_, ?_, ?_, ?_, rfl⟩ <;>
      first
        | exact (clampAxis_mem _ _).1
        | exact (clampAxis_mem _ _).2
        | assumption
  · intro y z
    simp only [directionalStep, clampAxis, Position.mk.injEq, and_true,
      true_and]
    omega

/-- Witness for C3 at a concrete actor and map size. -/
theorem directionalStep_bounds_witness :
    (0 ≤ (⟨1, 0, 0⟩ : Position).x ∧ (⟨1, 0, 0⟩ : Position).x ≤ ((300 : Nat) : Int) ∧
     0 ≤ (⟨1, 0, 0⟩ : Position).y ∧ (⟨1, 0, 0⟩ : Position).y ≤ ((300 : Nat) : Int)) ∧
    directionalStep 300 300 3 Direction.Left ⟨1, 0, 0⟩ = ⟨0, 0, 0⟩ :=
  ⟨⟨by decide, by decide, by decide, by decide⟩,
   (directionalStep_bounds 300 300 3 Direction.Left ⟨1, 0, 0⟩
      (by decide) (by decide) (by decide) (by decide)).2 0 0⟩

/-- Helper: `covers` is transitive. -/
theorem covers_trans {a b c : BoundBox} (h1 : covers a b) (h2 : covers b c) :
    covers a c := by
  unfold covers at h1 h2 ⊢
  omega

/-- Helper: the union of two rectangles covers both, and any rectangle
covering both covers the union. -/
theorem boxUnion_spec (a b : BoundBox) :
    covers (boxUnion a b) a ∧ covers (boxUnion a b) b ∧
    ∀ c : BoundBox, covers c a → covers c b → covers c (boxUnion a b) := by
  unfold covers boxUnion
  refine ⟨by dsimp; omega, by dsimp; omega, ?_⟩
  intro c h1 h2
  dsimp
  omega

/-- Helper: folding `boxUnion` over a list yields a rectangle covering
the seed and every element, minimal among such rectangles. -/
theorem foldl_boxUnion_spec (l : List BoundBox) :
    ∀ init : BoundBox,
      covers (l.foldl boxUnion init) init ∧
      (∀ x ∈ l, covers (l.foldl boxUnion init) x) ∧
      (∀ b : BoundBox, covers b init → (∀ x ∈ l, covers b x) →
        covers b (l.foldl boxUnion init)) := by
  induction l with
  | nil =>
    intro init
    refine ⟨?_, by simp, fun b hb _ => hb⟩
    simp only [List.foldl_nil]
    unfold covers
    omega
  | cons x l ih =>
    intro init
    have hx := boxUnion_spec init x
    refine ⟨?_, ?_, ?_⟩
    · exact covers_trans ((ih (boxUnion init x)).1) hx.1
    · intro y hy
      rcases List.mem_cons.mp hy with h | h
      · rw [h]
        exact covers_trans ((ih (boxUnion init x)).1) hx.2.1
      · exact (ih (boxUnion init x)).2.1 y h
    · intro b hb hall
      exact (ih (boxUnion init x)).2.2 b
        (hx.2.2 b hb (hall x (List.mem_cons_self x l)))
        (fun y hy => hall y (List.mem_cons_of_mem x hy))

/-- Claim C4: `getSizeMaxShape` is the smallest axis-aligned rectangle
covering the hitbox and every attached shape in absolute coordinates;
with no attachment and a 32×32 hitbox at the origin it is
`{0, 0, 32, 32}`; a Center-positioned 100×100 attachment on a 10×10
hitbox at `(200, 200)` gives `{155, 155, 255, 255}`; adding a second
Center-positioned 50×200 attachment expands it to `{155, 105, 255, 305}`. -/
theorem getSizeMaxShape_spec (a : ActorGeom) :
    covers (getSizeMaxShape a) (hitboxBound a) ∧
    (∀ s ∈ a.shapes, covers (getSizeMaxShape a) (shapeBound a s)) ∧
    (∀ b : BoundBox, covers b (hitboxBound a) →
      (∀ s ∈ a.shapes, covers b (shapeBound a s)) →
      covers b (getSizeMaxShape a)) ∧
    getSizeMaxShape ⟨0, 0, 32, 32, []⟩ = ⟨0, 0, 32, 32⟩ ∧
    getSizeMaxShape ⟨200, 200, 10, 10, [⟨100, 100, ShapePositioning.Center⟩]⟩
      = ⟨155, 155, 255, 255⟩ ∧
    getSizeMaxShape ⟨200, 200, 10, 10,
        [⟨100, 100, ShapePositioning.Center⟩,
         ⟨50, 200, ShapePositioning.Center⟩]⟩
      = ⟨155, 105, 255, 305⟩ := by
  have hf := foldl_boxUnion_spec (a.shapes.map (shapeBound a)) (hitboxBound a)
  refine ⟨hf.1, ?_, ?_, by decide, by decide, by decide⟩
  · intro s hs
    exact hf.2.1 (shapeBound a s) (List.mem_map_of_mem (shapeBound a) hs)
  · intro b hb hall
    refine hf.2.2 b hb ?_
    intro x hx
    obtain ⟨s, hs, rfl⟩ := List.mem_map.mp hx
    exact hall s hs

/-- Helper: `Hook.inShape` is injective. -/
theorem inShape_injective : Function.Injective Hook.inShape := by
  intro a b h
  injection h

/-- Helper: `Hook.outShape` is injective. -/
theorem outShape_injective : Function.Injective Hook.outShape := by
  intro a b h
  injection h

/-- Helper: one evaluation fires the enter hook of shape `s` exactly
once when `s` moved from outside the previous set into the new set, and
never otherwise. -/
theorem count_inShape_evaluate (s : Nat) (prevSet newSet : List Nat)
    (hnew : newSet.Nodup) :
    (evaluate prevSet newSet).count (Hook.inShape s)
      = if s ∈ newSet ∧ s ∉ prevSet then 1 else 0 := by
  unfold evaluate
  rw [List.count_append]
  have hout : ((exited prevSet newSet).map Hook.outShape).count
      (Hook.inShape s) = 0 := by
    rw [List.count_eq_zero]
    simp
  rw [hout, Nat.add_zero, List.count_map_of_injective _ _ inShape_injective]
  unfold entered
  by_cases hmem : s ∈ newSet ∧ s ∉ prevSet
  · rw [if_pos hmem]
    refine List.count_eq_one_of_mem (hnew.filter _) ?_
    simp only [List.mem_filter, decide_eq_true_eq]
    exact ⟨hmem.1, hmem.2⟩
  · rw [if_neg hmem, List.count_eq_zero]
    simp only [List.mem_filter, decide_eq_true_eq]
    tauto

/-- Helper: one evaluation fires the exit hook of shape `s` exactly once
when `s` moved from inside the previous set out of the new set, and
never otherwise. -/
theorem count_outShape_evaluate (s : Nat) (prevSet newSet : List Nat)
    (hprev : prevSet.Nodup) :
    (evaluate prevSet newSet).count (Hook.outShape s)
      = if s ∈ prevSet ∧ s ∉ newSet then 1 else 0 := by
  unfold evaluate
  rw [List.count_append]
  have hin : ((entered prevSet newSet).map Hook.inShape).count
      (Hook.outShape s) = 0 := by
    rw [List.count_eq_zero]
    simp
  rw [hin, Nat.zero_add, List.count_map_of_injective _ _ outShape_injective]
  unfold exited
  by_cases hmem : s ∈ prevSet ∧ s ∉ newSet
  · rw [if_pos hmem]
    refine List.count_eq_one_of_mem (hprev.filter _) ?_
    simp only [List.mem_filter, decide_eq_true_eq]
    exact ⟨hmem.1, hmem.2⟩
  · rw [if_neg hmem, List.count_eq_zero]
    simp only [List.mem_filter, decide_eq_true_eq]
    tauto

/-- Claim C5: over any sequence of committed overlap sets, the enter
hook of a shape fires exactly as many times as the shape moves from the
previous set's complement into the new set, and the exit hook exactly as
many times as it leaves; in particular repeated commits while the actor
stays inside the shape fire no duplicate notification. -/
theorem trigger_hooks_exactly_once (s : Nat) (prevSet : List Nat)
    (runs : List (List Nat)) (hprev : prevSet.Nodup)
    (hruns : ∀ n ∈ runs, n.Nodup) :
    (commitRun prevSet runs).count (Hook.inShape s) = crossIn s prevSet runs ∧
    (commitRun prevSet runs).count (Hook.outShape s)
      = crossOut s prevSet runs := by
  induction runs generalizing prevSet with
  | nil => exact ⟨rfl, rfl⟩
  | cons n rest ih =>
    have hn : n.Nodup := hruns n (List.mem_cons_self n rest)
    have hrest : ∀ m ∈ rest, m.Nodup :=
      fun m hm => hruns m (List.mem_cons_of_mem n hm)
    obtain ⟨ih1, ih2⟩ := ih n hn hrest
    constructor
    · simp only [commitRun, crossIn, List.count_append, ih1,
        count_inShape_evaluate s prevSet n hn]
    · simp only [commitRun, crossOut, List.count_append, ih2,
        count_outShape_evaluate s prevSet n hprev]

/-- Witness for C5: entering shape 7, staying two more commits, then
leaving fires one enter hook and one exit hook. -/
theorem trigger_hooks_exactly_once_witness :
    ([] : List Nat).Nodup ∧
    (∀ n ∈ [[7], [7], [7], ([] : List Nat)], n.Nodup) ∧
    (commitRun [] [[7], [7], [7], []]).count (Hook.inShape 7)
        = crossIn 7 [] [[7], [7], [7], []] ∧
    (commitRun [] [[7], [7], [7], []]).count (Hook.outShape 7)
        = crossOut 7 [] [[7], [7], [7], []] :=
  ⟨by decide, by decide,
   trigger_hooks_exactly_once 7 [] [[7], [7], [7], []] (by decide) (by decide)⟩

/-- Helper: with positive speed and enough fuel, the boundary-capped
step loop reaches the target exactly. -/
theorem stepToBoundary_reaches (speed target : Nat) (hs : 1 ≤ speed) :
    ∀ fuel pos, pos ≤ target → target - pos ≤ fuel →
      stepToBoundary speed target fuel pos = target := by
  intro fuel
  induction fuel with
  | zero =>
    intro pos h1 h2
    have hpt : pos = target := by omega
    simp [stepToBoundary, hpt]
  | succ f ih =>
    intro pos h1 h2
    by_cases hle : target ≤ pos
    · have hpt : pos = target := le_antisymm h1 hle
      simp [stepToBoundary, hle, hpt]
    · simp only [stepToBoundary, hle, if_false]
      exact ih (min (pos + speed) target) (by omega) (by omega)

/-- Helper: one tile-aligned step from a tile-aligned position advances
by exactly one tile width, for every positive speed. -/
theorem tileStepRight_aligned (tileW speed pos : Nat) (ht : 1 ≤ tileW)
    (hs : 1 ≤ speed) (hpos : tileW ∣ pos) :
    tileStepRight tileW speed pos = pos + tileW := by
  have htarget : nextBoundary tileW pos = pos + tileW := by
    obtain ⟨k, rfl⟩ := hpos
    unfold nextBoundary
    rw [Nat.mul_div_cancel_left k ht]
    ring
  unfold tileStepRight
  rw [htarget]
  exact stepToBoundary_reaches speed (pos + tileW) hs (pos + tileW) pos
    (by omega) (by omega)

/-- Claim C7: from a tile-aligned position, `count` tile-aligned Right
steps end at exactly `count` tile widths further — an exact multiple of
the tile dimension, independent of the actor's speed; in particular two
tile-aligned Right steps with tile width 30 from the origin end at 60 on
the x axis (y and z are untouched by a Right step). -/
theorem tileRight_spec (tileW speed pos n : Nat) (ht : 1 ≤ tileW)
    (hs : 1 ≤ speed) (hpos : tileW ∣ pos) :
    tileRightRepeat tileW speed n pos = pos + n * tileW ∧
    tileW ∣ tileRightRepeat tileW speed n pos ∧
    tileRightRepeat 30 speed 2 0 = 60 := by
  have hgen : ∀ m q, tileW ∣ q → tileRightRepeat tileW speed m q
      = q + m * tileW := by
    intro m
    induction m with
    | zero => intro q _; simp [tileRightRepeat]
    | succ k ih =>
      intro q hq
      simp only [tileRightRepeat]
      rw [tileStepRight_aligned tileW speed q ht hs hq,
        ih (q + tileW) (dvd_add hq dvd_rfl)]
      ring
  have hgen30 : ∀ m q, 30 ∣ q → tileRightRepeat 30 speed m q
      = q + m * 30 := by
    intro m
    induction m with
    | zero => intro q _; simp [tileRightRepeat]
    | succ k ih =>
      intro q hq
      simp only [tileRightRepeat]
      rw [tileStepRight_aligned 30 speed q (by omega) hs hq,
        ih (q + 30) (dvd_add hq dvd_rfl)]
      ring
  refine ⟨hgen n pos hpos, ?_, ?_⟩
  · rw [hgen n pos hpos]
    exact dvd_add hpos (Dvd.intro n (Nat.mul_comm tileW n))
  · rw [hgen30 2 0 (dvd_zero 30)]

/-- Witness for C7 at tile width 30, speed 7 and two steps from the
origin. -/
theorem tileRight_spec_witness :
    1 ≤ 30 ∧ 1 ≤ 7 ∧ 30 ∣ 0 ∧ tileRightRepeat 30 7 2 0 = 0 + 2 * 30 :=
  ⟨by decide, by decide, by decide,
   (tileRight_spec 30 7 0 2 (by decide) (by decide) (by decide)).1⟩

end RPGJS
